import Mathlib

/-!
Verification of the lols-router gateway against its specification.

The definitions below are shallow embeddings of the JavaScript sources:
  * src/helpers/context-truncate.js  (token estimation and context truncation)
  * src/endpoint/chat.js             (chat pipeline: truncation step, max_tokens,
                                      system-prompt priority)
  * src/helpers/model-router.js      (category detection / vision routing)
  * the orchestrator module          (GPU mutex, ensureModel, accessors)

JavaScript numbers are modelled as `Nat`/`Int`; JS falsiness of numbers is
`= 0`, of strings is `= ""`, of absent fields is `Option.none`.  Asynchronous
effects (HTTP probes, process spawn/stop outcomes) are passed in explicitly as
environment records so the state transitions of the source become pure
functions.
-/

namespace LolsRouter

/-! ## Message data model -/

/-- One entry of a multimodal `content` array: a `type` tag plus, for text
parts, a `text` field.  A missing or empty `text` field is JS-falsy. -/
structure Part where
  type : String
  text : Option String := none
  deriving DecidableEq, Repr

/-- A message `content` value: either a plain string or an array of typed
parts (the two shapes the source handles). -/
inductive Content where
  | str (s : String)
  | parts (l : List Part)
  deriving DecidableEq, Repr

/-- A chat message.  `content := none` models an absent / null / non-string
non-array content field (all of which the source treats alike). -/
structure Message where
  role : String
  content : Option Content
  deriving DecidableEq, Repr

/-- JS truthiness of a `content` value: empty strings and absent values are
falsy, arrays (even empty ones) are truthy. -/
def contentTruthy : Option Content → Bool
  | some (Content.str s) => s != ""
  | some (Content.parts _) => true
  | none => false

/-! ## context-truncate.js -/

/-- `estimateTokens(text)`: 0 for falsy text, else
`Math.ceil(Math.ceil(text.length / 2.5) * 1.3)`.
Over the naturals, `ceil(L / 2.5) = (2 * L + 4) / 5` and
`ceil(b * 1.3) = (13 * b + 9) / 10` (integer division); the equivalence with
the real-number ceilings is proved in `estimateTokens_eq_ceil` below. -/
def estimateTokens (text : String) : Nat :=
  if text = "" then 0
  else (13 * ((2 * text.length + 4) / 5) + 9) / 10

/-- Tokens contributed by one entry of an array-valued content: the
`if (type === 'text' && item.text) ... else if (type === 'image_url') ...`
chain of `countMessageTokens`. -/
def partTokens (p : Part) : Nat :=
  if p.type == "text" && p.text.getD "" != "" then estimateTokens (p.text.getD "")
  else if p.type == "image_url" then 400
  else 0

/-- `countMessageTokens(message)`: per-part sum for array content, text
estimate for string content, nothing otherwise, plus the 10-token
role/structure overhead. -/
def countMessageTokens (m : Message) : Nat :=
  (match m.content with
   | some (Content.parts l) => l.foldl (fun acc p => acc + partTokens p) 0
   | some (Content.str s) => estimateTokens s
   | none => 0) + 10

/-- The `stats` record returned by `truncateContext`. -/
structure TruncStats where
  original : Nat
  truncated : Nat
  removed : Nat
  systemTokens : Nat
  conversationTokens : Nat
  limit : Nat
  deriving DecidableEq, Repr

/-- The `{ messages, stats }` record returned by `truncateContext`. -/
structure TruncResult where
  messages : List Message
  stats : TruncStats
  deriving DecidableEq, Repr

/-- The synthesized truncation notice pushed when messages were removed. -/
def noticeMessage (removedCount limit : Nat) : Message :=
  { role := "system"
  , content := some (Content.str ("[Context truncated: " ++ toString removedCount ++
      " older messages removed to fit " ++ toString limit ++
      " token limit. Conversation continues below.]")) }

/-- The backward walk of `truncateContext` (`for (let i = len - 1; i >= 0; i--)`
with a `break` at the first overflow).  The argument list is the conversation
newest-first; the result is the kept messages newest-first together with the
accumulated conversation token count. -/
def keepRecent (avail : Int) (acc : Nat) : List Message → List Message × Nat
  | [] => ([], acc)
  | m :: older =>
    let t := countMessageTokens m
    if (acc : Int) + t > avail then ([], acc)
    else
      let r := keepRecent avail (acc + t) older
      (m :: r.1, r.2)

/-- `truncateContext(messages, maxInputTokens)` from context-truncate.js. -/
def truncateContext (messages : List Message) (maxInputTokens : Nat) : TruncResult :=
  let systemMessages := messages.filter (fun m => m.role == "system")
  let conversationMessages := messages.filter (fun m => m.role != "system")
  let systemTokens := systemMessages.foldl (fun acc m => acc + countMessageTokens m) 0
  let availableForConversation : Int := (maxInputTokens : Int) - systemTokens - 500
  if availableForConversation ≤ 0 then
    { messages := systemMessages
    , stats := { original := messages.length, truncated := systemMessages.length
               , removed := conversationMessages.length, systemTokens := systemTokens
               , conversationTokens := 0, limit := maxInputTokens } }
  else
    let kr := keepRecent availableForConversation 0 conversationMessages.reverse
    let keptConversation := kr.1.reverse
    let removedCount := conversationMessages.length - keptConversation.length
    let finalMessages := systemMessages ++
      (if removedCount > 0 then [noticeMessage removedCount maxInputTokens] else []) ++
      keptConversation
    { messages := finalMessages
    , stats := { original := messages.length, truncated := finalMessages.length
               , removed := removedCount, systemTokens := systemTokens
               , conversationTokens := kr.2, limit := maxInputTokens } }

/-! ## chat.js pipeline steps -/

/-- chat.js, truncation step: every request with a non-empty `messages` array
is truncated against the hardcoded budget `maxContextTokens = 24000`;
the selected descriptor is not consulted. -/
def chatTruncStep (messages : List Message) : List Message :=
  if messages.length > 0 then (truncateContext messages 24000).messages else messages

/-- Claim-side definition (from the specification, for comparison with
`chatTruncStep`): truncation happens iff the selected descriptor has a
`context` value, and that value is the budget. -/
def specContextStep (descContext : Option Nat) (messages : List Message) : List Message :=
  match descContext with
  | some c => (truncateContext messages c).messages
  | none => messages

/-- JS `a || b` on an optional number: absent and `0` are falsy. -/
def jsOrNum (a : Option Int) (b : Int) : Int :=
  match a with
  | some v => if v = 0 then b else v
  | none => b

/-- chat.js: `payload.max_tokens || payload.n_predict || 0`. -/
def requestedMaxTokens (maxTokensField nPredictField : Option Int) : Int :=
  jsOrNum maxTokensField (jsOrNum nPredictField 0)

/-- chat.js: `plan.config?.maxTokens || 2000`. -/
def configuredMaxTokens (descMaxTokens : Option Int) : Int :=
  jsOrNum descMaxTokens 2000

/-- chat.js, max_tokens resolution: the if / else-if / else chain. -/
def chatMaxTokens (maxTokensField nPredictField descMaxTokens : Option Int) : Int :=
  let requested := requestedMaxTokens maxTokensField nPredictField
  let modelMax := configuredMaxTokens descMaxTokens
  if requested < modelMax then modelMax
  else if requested > 0 then requested
  else modelMax

/-- chat.js, system-prompt priority step (after truncation).  `injectPrompt`
is the already-resolved `plan.categorySystemPrompt || resolveSystemPrompt(plan.config)`
value (`none` when both are missing, JS-falsy when empty).  When the leading
message has role `system`: under `ignoreRoleSystem` every system-role message
is filtered out, otherwise its content becomes the user-provided prompt
(truthiness of the content decides whether injection still runs). -/
def systemPromptStep (ignoreRoleSystem : Bool) (injectPrompt : Option String)
    (msgs : List Message) : List Message :=
  let st :=
    match msgs with
    | [] => (msgs, false)
    | m0 :: _ =>
      if m0.role == "system" then
        if ignoreRoleSystem then (msgs.filter (fun m => m.role != "system"), false)
        else (msgs, contentTruthy m0.content)
      else (msgs, false)
  if st.2 then st.1
  else
    match injectPrompt with
    | some p =>
      if p != "" then { role := "system", content := some (Content.str p) } :: st.1
      else st.1
    | none => st.1

/-- The chat.js message pipeline relevant to system-prompt handling:
truncation step (lines 64-75) followed by the system-prompt priority step
(lines 97-139). -/
def chatForwardMessages (ignoreRoleSystem : Bool) (injectPrompt : Option String)
    (msgs : List Message) : List Message :=
  systemPromptStep ignoreRoleSystem injectPrompt (chatTruncStep msgs)

/-! ## model-router.js: detectCategory -/

/-- Whitespace for the purposes of JS `String.prototype.trim`. -/
def jsWs (c : Char) : Bool :=
  c == ' ' || c == '\t' || c == '\n' || c == '\x0d' || c == '\x0c' || c == '\x0b'

/-- JS `s.trim()`: strips leading and trailing whitespace. -/
def jsTrim (s : String) : String :=
  String.mk (((s.data.dropWhile jsWs).reverse.dropWhile jsWs).reverse)

/-- ASCII lowering of one character (the relevant fragment of JS
`String.prototype.toLowerCase` for classifier answers). -/
def jsLowerChar (c : Char) : Char :=
  if 'A' ≤ c ∧ c ≤ 'Z' then Char.ofNat (c.toNat + 32) else c

/-- JS `s.toLowerCase()` on ASCII data. -/
def jsToLower (s : String) : String :=
  String.mk (s.data.map jsLowerChar)

/-- The guard clauses of `detectCategory` that extract the routing text:
the last user-role message is taken (`filter(...).pop()`); a missing message
or JS-falsy content yields no text (the source returns `"default"` there);
array content concatenates the `text` fields of truthy text parts with
newlines; string content is used as is. -/
def extractUserText (messages : List Message) : Option String :=
  match (messages.filter (fun m => m.role == "user")).getLast? with
  | none => none
  | some m =>
    if !contentTruthy m.content then none
    else
      match m.content with
      | some (Content.parts l) =>
        some (String.intercalate "\n"
          ((l.filter (fun p => p.type == "text" && p.text.getD "" != "")).map
            (fun p => p.text.getD "")))
      | some (Content.str s) => some s
      | none => none

/-- The structural image scan of `detectCategory`: any message whose content
is an array holding a part of type `image_url` or `image`. -/
def hasImage (messages : List Message) : Bool :=
  messages.any (fun m =>
    match m.content with
    | some (Content.parts l) => l.any (fun p => p.type == "image_url" || p.type == "image")
    | _ => false)

/-- Handling of the classifier backend's answer: a failed call (timeout,
non-ok status, malformed body) falls back to `default`; a returned token is
trimmed, lowercased and validated against the configured category keys. -/
def classifierResult (validCats : List String) (resp : Except Unit String) : String :=
  match resp with
  | Except.error _ => "default"
  | Except.ok content =>
    let category := jsToLower (jsTrim content)
    if validCats.contains category then category else "default"

/-- `detectCategory(payload)` from model-router.js, with the classifier
backend's availability (`isRouterRunning()`), the configured category keys and
the classifier call's outcome passed in as the environment.  The branch order
is that of the source: router-availability check, last-user-text extraction
and emptiness checks, image scan, classifier call. -/
def detectCategory (routerRunning : Bool) (validCats : List String)
    (resp : Except Unit String) (messages : List Message) : String :=
  if !routerRunning then "default"
  else
    match extractUserText messages with
    | none => "default"
    | some userContent =>
      if (jsTrim userContent).length == 0 then "default"
      else if hasImage messages then "vision"
      else classifierResult validCats resp

/-! ## Orchestrator: the GPU mutex (acquire / release) -/

/-- Ghost log of critical-section activity: `enter t` records task `t`'s
acquire resolving, `leave t` records task `t` calling release. -/
inductive LogEvent where
  | enter (t : Nat)
  | leave (t : Nat)
  deriving DecidableEq, Repr

/-- Scheduler-visible events: task `t` calls `acquire`, or the holder calls
`release`. -/
inductive MutexEvent where
  | acq (t : Nat)
  | rel
  deriving DecidableEq, Repr

/-- The mutex module state: `locked` and `waiters` are the source's
variables; `holder` and `log` are ghost fields recording who is inside the
critical section and the history of entries and releases. -/
structure MutexState where
  locked : Bool
  waiters : List Nat
  holder : Option Nat
  log : List LogEvent
  deriving DecidableEq, Repr

def mutexInit : MutexState := ⟨false, [], none, []⟩

/-- One step of the mutex.  `acquire()`: if unlocked, lock and resolve
immediately (the caller enters); else push the resolver on `waiters`.
`release()`: shift the first waiter and wake it (it enters, the mutex stays
locked), else mark unlocked.  `rel` is only legal while some task holds the
mutex (in the source `release` is invoked in the holder's finally block). -/
def mutexStep (s : MutexState) : MutexEvent → Option MutexState
  | MutexEvent.acq t =>
    if s.locked then some { s with waiters := s.waiters ++ [t] }
    else some { locked := true, waiters := s.waiters, holder := some t
              , log := s.log ++ [LogEvent.enter t] }
  | MutexEvent.rel =>
    match s.holder with
    | none => none
    | some h =>
      match s.waiters with
      | [] => some { locked := false, waiters := [], holder := none
                   , log := s.log ++ [LogEvent.leave h] }
      | n :: rest => some { locked := true, waiters := rest, holder := some n
                          , log := s.log ++ [LogEvent.leave h, LogEvent.enter n] }

def mutexRun (s : MutexState) : List MutexEvent → Option MutexState
  | [] => some s
  | e :: es =>
    match mutexStep s e with
    | none => none
    | some s2 => mutexRun s2 es

/-- The order in which tasks called `acquire` in a trace. -/
def acqSeq (tr : List MutexEvent) : List Nat :=
  tr.filterMap (fun e => match e with | MutexEvent.acq t => some t | _ => none)

/-- The order in which tasks entered the critical section. -/
def enterSeq (log : List LogEvent) : List Nat :=
  log.filterMap (fun e => match e with | LogEvent.enter t => some t | _ => none)

/-! ## Orchestrator: ensureModel and the accessors -/

/-- The slice of a model descriptor that `ensureModel` consults.  `type` is
the raw optional `type` string (`"remote"`, `"whisper-cpp"`, or absent
meaning llama-cpp). -/
structure ModelCfg where
  type : Option String := none
  port : Nat := 0
  deriving DecidableEq, Repr

/-- The orchestrator's `current` record.  The remote branch of the source
builds `{name, type, config}` only, so `port`, `owned` and `proc` are absent
(JS-falsy), modelled as `none` / `false`. -/
structure Resident where
  name : String
  type : String
  port : Option Nat
  owned : Bool
  proc : Option Nat
  deriving DecidableEq, Repr

/-- Orchestrator state: the `current` module variable, plus ghost tracking of
the processes this process has spawned and not yet stopped (`running`, by
pid) and a fresh-pid counter. -/
structure OrchState where
  current : Option Resident
  running : List Nat
  nextPid : Nat
  deriving DecidableEq, Repr

def orchInit : OrchState := ⟨none, [], 0⟩

/-- Outcomes of the external effects of one `ensureModel` call: whether the
driver stop completes within its 30 s timeout, whether the adoption probe
(`isUp` on the target port) reports live, whether the driver `start` returns
without throwing (missing binary throws synchronously), and whether
readiness polling succeeds within the 5-minute deadline. -/
structure EnsureEnv where
  stopOk : Bool := true
  portUp : Bool := false
  startOk : Bool := true
  readyOk : Bool := true
  deriving DecidableEq, Repr

/-- Result of an `ensureModel` call: the propagated error, if any, together
with the module state after the call (JS exceptions leave prior mutations in
place). -/
structure EnsureResult where
  err : Option String
  state : OrchState
  deriving DecidableEq, Repr

/-- `ensureModel(modelName, modelConfig)` from the orchestrator module.
Branches in source order: unknown model; remote marker (overwrites `current`,
no eviction); same-local-model no-op; stop-if-owned (does not clear
`current`); adoption probe; cold load (assigns `current` only after readiness
succeeds). -/
def ensureModel (registry : String → Option ModelCfg) (env : EnsureEnv)
    (modelName : String) (modelConfig : Option ModelCfg) (s : OrchState) : EnsureResult :=
  match modelConfig.orElse (fun _ => registry modelName) with
  | none => ⟨some ("unknown model: " ++ modelName), s⟩
  | some model =>
    if model.type == some "remote" then
      ⟨none, { s with current := some ⟨modelName, "remote", none, false, none⟩ }⟩
    else if (match s.current with
             | some c => c.name == modelName && c.type != "remote"
             | none => false) then
      ⟨none, s⟩
    else
      let needStop := match s.current with
        | some c => c.owned && c.proc.isSome
        | none => false
      if needStop && !env.stopOk then ⟨some "timeout: stop", s⟩
      else
        let s1 :=
          if needStop then
            { s with running :=
                match s.current with
                | some c =>
                  match c.proc with
                  | some pid => s.running.erase pid
                  | none => s.running
                | none => s.running }
          else s
        let modelType := model.type.getD "llama-cpp"
        if env.portUp then
          ⟨none, { s1 with current := some ⟨modelName, modelType, some model.port, false, none⟩ }⟩
        else if !env.startOk then ⟨some "start failed", s1⟩
        else
          let pid := s1.nextPid
          let s2 := { s1 with running := s1.running ++ [pid], nextPid := pid + 1 }
          if !env.readyOk then ⟨some "timeout: waitReady", s2⟩
          else ⟨none, { s2 with current := some ⟨modelName, modelType, some model.port, true, some pid⟩ }⟩

/-- `getCurrentPort()`: throws `"no model running"` when no resident has been
set, else returns the resident's port field (absent for remote markers). -/
def getCurrentPort (s : OrchState) : Except String (Option Nat) :=
  match s.current with
  | none => Except.error "no model running"
  | some c => Except.ok c.port

/-- `getCurrentModel()`: throws `"no model running"` when no resident has
been set, else returns the resident record. -/
def getCurrentModel (s : OrchState) : Except String Resident :=
  match s.current with
  | none => Except.error "no model running"
  | some c => Except.ok c

/-- One orchestrator call for trace-level reasoning. -/
structure EnsureCall where
  env : EnsureEnv
  name : String
  cfg : Option ModelCfg
  deriving Repr

/-- Runs a sequence of serialized `ensureModel` calls, threading the state
(the chat handler catches thrown errors, so the process continues after a
failed call with whatever state the failed call left behind). -/
def runEnsureCalls (registry : String → Option ModelCfg) (s : OrchState) :
    List EnsureCall → OrchState
  | [] => s
  | c :: cs => runEnsureCalls registry (ensureModel registry c.env c.name c.cfg s).state cs

/-- Every call in the sequence fails (propagates an error). -/
def allCallsFail (registry : String → Option ModelCfg) (s : OrchState) :
    List EnsureCall → Bool
  | [] => true
  | c :: cs =>
    let r := ensureModel registry c.env c.name c.cfg s
    r.err.isSome && allCallsFail registry r.state cs

/-! ## Claim-side definitions (stated from the specification text, for
comparison with the source-side definitions above) -/

/-- Claim-side token estimate for a text fragment of length `L`:
literally `ceil(ceil(L / 2.5) * 1.3)` over the rationals. -/
def specTextTokens (L : Nat) : Int :=
  ⌈(⌈(L : ℚ) / (5 / 2)⌉ : ℚ) * (13 / 10)⌉

/-- C9 claim-side per-part tokens: the text formula for text parts, 400 for
structured image parts of type `image_url` AND of type `image`. -/
def c9ClaimPartTokens (p : Part) : Int :=
  if p.type = "text" then specTextTokens ((p.text.getD "").length)
  else if p.type = "image_url" ∨ p.type = "image" then 400
  else 0

/-- C9 claim-side per-message estimate: 10 overhead plus the text formula for
string content, or the per-part sum for list content. -/
def c9ClaimMsgTokens (m : Message) : Int :=
  10 + (match m.content with
        | some (Content.str s) => specTextTokens s.length
        | some (Content.parts l) => (l.map c9ClaimPartTokens).sum
        | none => 0)

/-- C9 amended per-part tokens: as the claim, except that only parts of type
`image_url` count 400; parts of type `image` (and any other non-text type)
contribute 0. -/
def c9AmendedPartTokens (p : Part) : Int :=
  if p.type = "text" then specTextTokens ((p.text.getD "").length)
  else if p.type = "image_url" then 400
  else 0

/-- C9 amended per-message estimate. -/
def c9AmendedMsgTokens (m : Message) : Int :=
  10 + (match m.content with
        | some (Content.str s) => specTextTokens s.length
        | some (Content.parts l) => (l.map c9AmendedPartTokens).sum
        | none => 0)

/-- The system messages the chat pipeline itself injects under the
`ignoreRoleSystem` policy: the resolved configured prompt if it is truthy,
nothing otherwise. -/
def injectedList (prompt : Option String) : List Message :=
  match prompt with
  | some p =>
    if p != "" then [{ role := "system", content := some (Content.str p) }] else []
  | none => []

/-- Ghost chain of completed critical sections: task `t` entered and then
released, in sequence. -/
def completed : List Nat → List LogEvent
  | [] => []
  | t :: ts => LogEvent.enter t :: LogEvent.leave t :: completed ts

/-- Invariant of the mutex state: an unlocked mutex has no waiters and no
holder, `locked` mirrors the presence of a holder, and the log is a chain of
completed critical sections followed, when the mutex is held, by the pending
entry of the holder. -/
def MutexInv (s : MutexState) : Prop :=
  (s.locked = false → s.waiters = []) ∧
  (s.locked = false ↔ s.holder = none) ∧
  (∃ ts, (s.holder = none ∧ s.log = completed ts) ∨
         (∃ h, s.holder = some h ∧ s.log = completed ts ++ [LogEvent.enter h]))

/-! ## Concrete inputs used by counterexamples and witnesses -/

def imgUrlPart : Part := { type := "image_url" }

/-- A part of type `image` (the Anthropic-style image tag). -/
def imageTypedPart : Part := { type := "image" }

/-- A user message whose estimated cost (59 images, 23610 tokens) alone
exceeds the hardcoded available budget 24000 - 500. -/
def imgMsg59 : Message :=
  { role := "user", content := some (Content.parts (List.replicate 59 imgUrlPart)) }

/-- A user message costing 810 estimated tokens (two images). -/
def imgMsg2 : Message :=
  { role := "user", content := some (Content.parts [imgUrlPart, imgUrlPart]) }

/-- A user message carrying a part of type `image` only. -/
def imageTypedMsg : Message :=
  { role := "user", content := some (Content.parts [imageTypedPart]) }

/-- A user message with a text part and an image part. -/
def imgTextMsg : Message :=
  { role := "user"
  , content := some (Content.parts [{ type := "text", text := some "what?" }, imgUrlPart]) }

/-- A user message whose content is an image part with no text part. -/
def imgOnlyMsg : Message :=
  { role := "user", content := some (Content.parts [imgUrlPart]) }

def sysPirate : Message := { role := "system", content := some (Content.str "Pirate.") }

def userHi : Message := { role := "user", content := some (Content.str "hi") }

def cfgA : ModelCfg := { type := none, port := 8001 }

def cfgB : ModelCfg := { type := none, port := 8002 }

def cfgRemote : ModelCfg := { type := some "remote", port := 0 }

/-- Environment of a clean cold load: nothing on the target port, driver
start and readiness both succeed. -/
def envColdLoad : EnsureEnv :=
  { stopOk := true, portUp := false, startOk := true, readyOk := true }

/-- Environment of a failed cold load: readiness polling exceeds the
5-minute deadline. -/
def envReadyTimeout : EnsureEnv :=
  { stopOk := true, portUp := false, startOk := true, readyOk := false }

def emptyRegistry : String → Option ModelCfg := fun _ => none

/-- Trace step 1: cold load of local model `model-a`. -/
def c3AfterA : EnsureResult := ensureModel emptyRegistry envColdLoad "model-a" (some cfgA) orchInit

/-- Trace step 2: a request for a remote-kind model is served. -/
def c3AfterR : EnsureResult :=
  ensureModel emptyRegistry envColdLoad "remote-r" (some cfgRemote) c3AfterA.state

/-- Trace step 3: cold load of local model `model-b`. -/
def c3AfterB : EnsureResult :=
  ensureModel emptyRegistry envColdLoad "model-b" (some cfgB) c3AfterR.state

/-- A cold load of `model-b` that times out while `model-a` is resident. -/
def c4Fail : EnsureResult :=
  ensureModel emptyRegistry envReadyTimeout "model-b" (some cfgB) c3AfterA.state

/-- The follow-up request for the evicted `model-a` after the failed load. -/
def c4Retry : EnsureResult :=
  ensureModel emptyRegistry envColdLoad "model-a" (some cfgA) c4Fail.state

/-! ## Theorems -/

/-- Claim C7: for every chat request the forwarded `max_tokens` equals
`max(requested, configured)` when `requested > 0` and `configured` otherwise,
where `requested` is `max_tokens || n_predict || 0` of the request and
`configured` is the descriptor's `maxTokens || 2000` (JS numeric or:
a present-but-zero field falls through). -/
theorem chatMaxTokens_eq_policy (mt np dm : Option Int) :
    chatMaxTokens mt np dm =
      if 0 < requestedMaxTokens mt np
      then max (requestedMaxTokens mt np) (configuredMaxTokens dm)
      else configuredMaxTokens dm := by
  unfold chatMaxTokens
  set r := requestedMaxTokens mt np with hr
  set c := configuredMaxTokens dm with hc
  by_cases h1 : r < c
  · rw [if_pos h1]
    by_cases h2 : 0 < r
    · rw [if_pos h2, max_eq_right (le_of_lt h1)]
    · rw [if_neg h2]
  · rw [if_neg h1]
    push_neg at h1
    by_cases h2 : 0 < r
    · rw [if_pos h2, if_pos h2, max_eq_left h1]
    · rw [if_neg h2, if_neg h2]

/-- Claim C1 (code bug): the truncation step of chat.js does not consult the
selected descriptor.  A message list whose estimated size exceeds the
hardcoded 24000 budget is truncated even though its descriptor has no
`context` (first two conjuncts: code vs. the claim's gating), and a list that
a 1000-token `context` budget would truncate is forwarded whole because the
hardcoded 24000 is used instead (last two conjuncts: code vs. the claim's
budget). -/
theorem chatTruncStep_ignores_descriptor :
    chatTruncStep [imgMsg59] ≠ [imgMsg59] ∧
    specContextStep none [imgMsg59] = [imgMsg59] ∧
    chatTruncStep [imgMsg2] = [imgMsg2] ∧
    specContextStep (some 1000) [imgMsg2] ≠ [imgMsg2] := by
  refine ⟨by decide, rfl, by decide, by decide⟩

/-- Claim C3 (code bug): after the serialized call sequence
cold-load `model-a`, remote `remote-r`, cold-load `model-b` — all three
succeeding — the processes of both `model-a` (pid 0) and `model-b` (pid 1)
have been spawned and never stopped: the remote marker overwrote the owned
resident record, so the eviction step had nothing to stop and two local
backends are resident simultaneously. -/
theorem ensureModel_two_local_processes :
    c3AfterA.err = none ∧ c3AfterR.err = none ∧ c3AfterB.err = none ∧
    c3AfterA.state.running = [0] ∧
    c3AfterB.state.running = [0, 1] ∧
    c3AfterB.state.current = some ⟨"model-b", "llama-cpp", some 8002, true, some 1⟩ := by
  decide

/-- Claim C4 (code bug): when a cold load of `model-b` fails at the readiness
deadline after `model-a` (owned, pid 0) was evicted, the error is propagated
but the resident record is NOT cleared: it still names `model-a` even though
pid 0 is no longer running, and the next request for `model-a` is a no-op
that leaves the whole state unchanged instead of re-running
eviction/adoption/cold-load. -/
theorem ensureModel_stale_resident_after_failed_load :
    c4Fail.err = some "timeout: waitReady" ∧
    c4Fail.state.current = some ⟨"model-a", "llama-cpp", some 8001, true, some 0⟩ ∧
    (0 : Nat) ∉ c4Fail.state.running ∧
    c4Retry.err = none ∧
    c4Retry.state = c4Fail.state := by
  decide

/-- Claim C2 counterexample: with an image part present, `detectCategory`
returns `default`, not `vision`, when the classifier backend is not running
(first pair), and likewise — classifier running — when the last user message
has no text part (second pair): the availability check and the empty-text
check precede the image check in the source. -/
theorem detectCategory_vision_counterexample :
    detectCategory false ["vision"] (Except.ok "vision") [imgTextMsg] = "default" ∧
    detectCategory false ["vision"] (Except.ok "vision") [imgTextMsg] ≠ "vision" ∧
    hasImage [imgTextMsg] = true ∧
    detectCategory true ["vision"] (Except.ok "vision") [imgOnlyMsg] = "default" ∧
    detectCategory true ["vision"] (Except.ok "vision") [imgOnlyMsg] ≠ "vision" ∧
    hasImage [imgOnlyMsg] = true := by
  decide

/-- Claim C2 as amended: when the classifier backend is running and the last
user message yields non-empty trimmed text, the presence of any `image_url`
or `image` part forces category `vision`, for every configured category map
and every classifier outcome. -/
theorem detectCategory_vision_override (validCats : List String)
    (resp : Except Unit String) (msgs : List Message) (uc : String)
    (h1 : extractUserText msgs = some uc)
    (h2 : ((jsTrim uc).length == 0) = false)
    (h3 : hasImage msgs = true) :
    detectCategory true validCats resp msgs = "vision" := by
  unfold detectCategory
  rw [h1]
  simp [h2, h3]

/-- Witness for `detectCategory_vision_override`: a message with a text part
and an image part routes to `vision` although the classifier answered
`chat`. -/
theorem detectCategory_vision_override_witness :
    detectCategory true ["vision"] (Except.ok "chat") [imgTextMsg] = "vision" :=
  detectCategory_vision_override ["vision"] (Except.ok "chat") [imgTextMsg] "what?"
    (by decide) (by decide) (by decide)

/-- Claim C9 counterexample: a part of type `image` contributes 0 tokens in
the source (`countMessageTokens` = 10, the bare overhead), while the claim's
formula assigns it 400 (total 410). -/
theorem countMessageTokens_image_counterexample :
    (countMessageTokens imageTypedMsg : Int) ≠ c9ClaimMsgTokens imageTypedMsg ∧
    countMessageTokens imageTypedMsg = 10 ∧
    c9ClaimMsgTokens imageTypedMsg = 410 := by
  refine ⟨?_, by decide, ?_⟩ <;> decide

/-- `ceil(L / 2.5)` over the rationals equals the natural-division form
`(2 * L + 4) / 5` used in the embedding of `estimateTokens`. -/
theorem ceil_div_five_halves (L : Nat) :
    ⌈(L : ℚ) / (5 / 2)⌉ = (((2 * L + 4) / 5 : Nat) : Int) := by
  have hq : (L : ℚ) / (5 / 2) = (2 * L : ℚ) / 5 := by ring
  set d : ℕ := (2 * L + 4) / 5 with hd
  have hlo : 5 * d < 2 * L + 5 := by omega
  have hhi : 2 * L ≤ 5 * d := by omega
  have hcl : (5 * d : ℚ) < 2 * L + 5 := by exact_mod_cast hlo
  have hch : (2 * L : ℚ) ≤ 5 * d := by exact_mod_cast hhi
  rw [hq, Int.ceil_eq_iff]
  constructor
  · rw [lt_div_iff₀ (by norm_num : (0 : ℚ) < 5)]
    push_cast
    push_cast at hcl
    linarith
  · rw [div_le_iff₀ (by norm_num : (0 : ℚ) < 5)]
    push_cast
    push_cast at hch
    linarith

/-- `ceil(b * 1.3)` over the rationals equals the natural-division form
`(13 * b + 9) / 10` used in the embedding of `estimateTokens`. -/
theorem ceil_mul_thirteen_tenths (b : Nat) :
    ⌈(b : ℚ) * (13 / 10)⌉ = (((13 * b + 9) / 10 : Nat) : Int) := by
  have hq : (b : ℚ) * (13 / 10) = (13 * b : ℚ) / 10 := by ring
  set d : ℕ := (13 * b + 9) / 10 with hd
  have hlo : 10 * d < 13 * b + 10 := by omega
  have hhi : 13 * b ≤ 10 * d := by omega
  have hcl : (10 * d : ℚ) < 13 * b + 10 := by exact_mod_cast hlo
  have hch : (13 * b : ℚ) ≤ 10 * d := by exact_mod_cast hhi
  rw [hq, Int.ceil_eq_iff]
  constructor
  · rw [lt_div_iff₀ (by norm_num : (0 : ℚ) < 10)]
    push_cast
    push_cast at hcl
    linarith
  · rw [div_le_iff₀ (by norm_num : (0 : ℚ) < 10)]
    push_cast
    push_cast at hch
    linarith

/-- The source's integer-arithmetic `estimateTokens` computes exactly the
specification formula `ceil(ceil(L / 2.5) * 1.3)`. -/
theorem estimateTokens_eq_ceil (s : String) :
    (estimateTokens s : Int) = specTextTokens s.length := by
  unfold estimateTokens specTextTokens
  rw [ceil_div_five_halves, Int.cast_natCast, ceil_mul_thirteen_tenths]
  by_cases hs : s = ""
  · subst hs
    norm_num
  · rw [if_neg hs]

/-- Per-part agreement between the source and the amended C9 formula. -/
theorem partTokens_cast (p : Part) : (partTokens p : Int) = c9AmendedPartTokens p := by
  unfold partTokens c9AmendedPartTokens
  by_cases h1 : p.type = "text"
  · by_cases h2 : p.text.getD "" = ""
    · have h0 : specTextTokens 0 = 0 := by
        unfold specTextTokens
        norm_num
      simp [h1, h2, h0]
    · simp [h1, h2, estimateTokens_eq_ceil]
  · by_cases h3 : p.type = "image_url" <;> simp [h1, h3]

/-- Folding the source's per-part accumulation agrees with summing the
amended formula. -/
theorem foldl_partTokens_cast (l : List Part) (acc : Nat) :
    ((l.foldl (fun a p => a + partTokens p) acc : Nat) : Int) =
      (acc : Int) + (l.map c9AmendedPartTokens).sum := by
  induction l generalizing acc with
  | nil => simp
  | cons p t ih =>
    simp only [List.foldl_cons, List.map_cons, List.sum_cons]
    rw [ih]
    push_cast
    rw [partTokens_cast]
    ring

/-- Claim C9 as amended: the source's per-message estimate is 10 plus
`ceil(ceil(L / 2.5) * 1.3)` for string content, and for list content the sum
of that formula over text parts plus 400 per part of type `image_url`
(parts of type `image` contribute nothing). -/
theorem countMessageTokens_eq_amended (m : Message) :
    (countMessageTokens m : Int) = c9AmendedMsgTokens m := by
  unfold countMessageTokens c9AmendedMsgTokens
  cases hm : m.content with
  | none => simp
  | some c =>
    cases c with
    | str s =>
      push_cast
      rw [estimateTokens_eq_ceil]
      ring
    | parts l =>
      push_cast
      rw [foldl_partTokens_cast]
      ring

/-- Every message kept by the sliding window comes from its input list. -/
theorem keepRecent_mem (avail : Int) :
    ∀ (l : List Message) (acc : Nat) (m : Message),
      m ∈ (keepRecent avail acc l).1 → m ∈ l := by
  intro l
  induction l with
  | nil => intro acc m h; simp [keepRecent] at h
  | cons x xs ih =>
    intro acc m h
    simp only [keepRecent] at h
    by_cases hc : (acc : Int) + (countMessageTokens x : Int) > avail
    · rw [if_pos hc] at h
      simp at h
    · rw [if_neg hc] at h
      simp only [List.mem_cons] at h
      rcases h with h | h
      · exact List.mem_cons.mpr (Or.inl h)
      · exact List.mem_cons.mpr (Or.inr (ih _ _ h))

/-- Structure of the truncator's output: the system messages of the input
(in order), then an optional synthesized notice, then kept non-system
messages. -/
theorem truncateContext_shape (msgs : List Message) (C : Nat) :
    ∃ mid kept : List Message,
      (truncateContext msgs C).messages =
        msgs.filter (fun m => m.role == "system") ++ mid ++ kept ∧
      (∀ m ∈ mid, m.role = "system") ∧
      (∀ m ∈ kept, (m.role == "system") = false) ∧
      (mid = [] ∨ ∃ n, mid = [noticeMessage n C]) := by
  unfold truncateContext
  dsimp only
  split
  · exact ⟨[], [], by simp, by simp, by simp, Or.inl rfl⟩
  · refine ⟨_, _, rfl, ?_, ?_, ?_⟩
    · split
      · intro m hm
        rw [List.mem_singleton] at hm
        subst hm
        rfl
      · intro m hm
        simp at hm
    · intro m hm
      rw [List.mem_reverse] at hm
      have h1 := keepRecent_mem _ _ _ _ hm
      rw [List.mem_reverse] at h1
      have h2 := (List.mem_filter.mp h1).2
      simp only [bne] at h2
      simpa using h2
    · split
      · exact Or.inr ⟨_, rfl⟩
      · exact Or.inl rfl

/-- Claim C8: every system-role message of the input appears in the output of
`truncateContext`, and the input's system-role messages form an in-order
sublist of the output. -/
theorem truncateContext_preserves_system (msgs : List Message) (C : Nat) :
    (msgs.filter (fun m => m.role == "system")).Sublist (truncateContext msgs C).messages ∧
    ∀ m, m ∈ msgs → m.role = "system" → m ∈ (truncateContext msgs C).messages := by
  obtain ⟨mid, kept, heq, hmid, hkept, hcase⟩ := truncateContext_shape msgs C
  rw [heq]
  constructor
  · exact (List.sublist_append_left _ _).trans (List.sublist_append_left _ _)
  · intro m hm hrole
    have hf : m ∈ msgs.filter (fun m => m.role == "system") :=
      List.mem_filter.mpr ⟨hm, by simp [hrole]⟩
    exact List.mem_append_left _ (List.mem_append_left _ hf)

/-- Witness for `truncateContext_preserves_system` at a concrete input. -/
theorem truncateContext_preserves_system_witness :
    ([userHi, sysPirate].filter (fun m => m.role == "system")).Sublist
      (truncateContext [userHi, sysPirate] 600).messages ∧
    sysPirate ∈ (truncateContext [userHi, sysPirate] 600).messages :=
  ⟨(truncateContext_preserves_system [userHi, sysPirate] 600).1,
   (truncateContext_preserves_system [userHi, sysPirate] 600).2 sysPirate (by decide) rfl⟩

/-- Filtering for system messages after stripping them yields nothing. -/
theorem filter_sys_of_filter_ne (l : List Message) :
    (l.filter (fun m => m.role != "system")).filter (fun m => m.role == "system") = [] := by
  rw [List.filter_filter]
  have hfalse : ∀ m : Message, ((m.role == "system") && (m.role != "system")) = false := by
    intro m
    by_cases h : m.role = "system" <;> simp [h]
  simp [hfalse]

/-- After the chat truncation step, either the leading message has role
`system`, or the whole list has no system-role message: the truncator moves
every system message (and the synthesized notice) to the front. -/
theorem chatTruncStep_cases (msgs : List Message) :
    (∃ m0 rest, chatTruncStep msgs = m0 :: rest ∧ m0.role = "system") ∨
    (chatTruncStep msgs).filter (fun m => m.role == "system") = [] := by
  unfold chatTruncStep
  by_cases hlen : msgs.length > 0
  · rw [if_pos hlen]
    obtain ⟨mid, kept, heq, hmid, hkept, hcase⟩ := truncateContext_shape msgs 24000
    rw [heq]
    rcases hsys : msgs.filter (fun m => m.role == "system") with _ | ⟨s, ss⟩
    · rcases hcase with rfl | ⟨n, rfl⟩
      · right
        rw [hsys]
        simp only [List.nil_append, List.append_nil]
        rw [List.filter_eq_nil_iff]
        intro a ha
        simp [hkept a ha]
      · left
        refine ⟨noticeMessage n 24000, kept, ?_, rfl⟩
        rw [hsys]
        simp
    · left
      refine ⟨s, ss ++ mid ++ kept, ?_, ?_⟩
      · rw [hsys]
        simp
      · have hmem : s ∈ msgs.filter (fun m => m.role == "system") := by
          rw [hsys]
          exact List.mem_cons_self _ _
        have h2 := (List.mem_filter.mp hmem).2
        simpa using h2
  · rw [if_neg hlen]
    right
    have hnil : msgs = [] := List.length_eq_zero.mp (by omega)
    simp [hnil]

/-- Under the `ignoreRoleSystem` flag, the system-role messages of the
forwarded payload are exactly the injected configured prompt. -/
theorem chatForward_strips_system_core (injectPrompt : Option String)
    (msgs : List Message) :
    (chatForwardMessages true injectPrompt msgs).filter (fun m => m.role == "system") =
      injectedList injectPrompt := by
  unfold chatForwardMessages
  rcases chatTruncStep_cases msgs with ⟨m0, rest, heq, hrole⟩ | hnil
  · rw [heq]
    have hb : (m0.role == "system") = true := by simp [hrole]
    unfold systemPromptStep
    simp only [hb, if_true]
    rcases injectPrompt with _ | p
    · simp [injectedList, filter_sys_of_filter_ne]
    · by_cases hp : p = ""
      · simp [injectedList, hp, filter_sys_of_filter_ne]
      · simp [injectedList, hp, filter_sys_of_filter_ne]
  · rcases htr : chatTruncStep msgs with _ | ⟨m0, rest⟩
    · unfold systemPromptStep
      rcases injectPrompt with _ | p
      · simp [injectedList]
      · by_cases hp : p = "" <;> simp [injectedList, hp]
    · rw [htr] at hnil
      have hb : (m0.role == "system") = false := by
        by_cases h : (m0.role == "system") = true
        · simp [List.filter_cons, h] at hnil
        · simpa using h
      unfold systemPromptStep
      simp only [hb]
      rcases injectPrompt with _ | p
      · simpa [injectedList] using hnil
      · by_cases hp : p = "" <;> simp [injectedList, hp, hnil]

/-- Claim C5: with the `ignoreRoleSystem` policy flag on, the system-role
messages of the forwarded payload are exactly the pipeline's own injected
configured prompt (when truthy), and a system-role message of the client's
input — wherever it was positioned — appears in the forwarded payload only
if it coincides with that injected prompt: the truncation step always
front-loads system messages and the strip then removes them all. -/
theorem chatForward_strips_system (injectPrompt : Option String) (msgs : List Message) :
    (chatForwardMessages true injectPrompt msgs).filter (fun m => m.role == "system") =
      injectedList injectPrompt ∧
    ∀ m, m ∈ msgs → m.role = "system" →
      m ∈ chatForwardMessages true injectPrompt msgs → m ∈ injectedList injectPrompt := by
  refine ⟨?_, ?_⟩
  case refine_2 =>
    intro m _ hrole hm
    have h1 := (chatForward_strips_system_core injectPrompt msgs)
    rw [← h1]
    exact List.mem_filter.mpr ⟨hm, by simp [hrole]⟩
  case refine_1 => exact chatForward_strips_system_core injectPrompt msgs

/-- Witness for `chatForward_strips_system`: with the flag on, a lone client
system message is stripped and only the configured prompt (here of equal
content) remains. -/
theorem chatForward_strips_system_witness :
    (chatForwardMessages true (some "Pirate.") [sysPirate]).filter
      (fun m => m.role == "system") = injectedList (some "Pirate.") ∧
    sysPirate ∈ injectedList (some "Pirate.") :=
  ⟨(chatForward_strips_system (some "Pirate.") [sysPirate]).1,
   (chatForward_strips_system (some "Pirate.") [sysPirate]).2 sysPirate (by decide) rfl
     (by decide)⟩

/-- Every `ensureModel` call either fails leaving `current` untouched, or
succeeds leaving some resident set. -/
theorem ensureModel_spec (reg : String → Option ModelCfg) (env : EnsureEnv)
    (n : String) (cfg : Option ModelCfg) (s : OrchState) :
    ((ensureModel reg env n cfg s).err.isSome = true ∧
      (ensureModel reg env n cfg s).state.current = s.current) ∨
    ((ensureModel reg env n cfg s).err = none ∧
      ((ensureModel reg env n cfg s).state.current).isSome = true) := by
  unfold ensureModel
  dsimp only
  split
  · exact Or.inl ⟨rfl, rfl⟩
  · split
    · exact Or.inr ⟨rfl, rfl⟩
    · split
      · rename_i hsame
        refine Or.inr ⟨rfl, ?_⟩
        rcases hsc : s.current with _ | c
        · rw [hsc] at hsame
          simp at hsame
        · simp [hsc]
      · split
        · exact Or.inl ⟨rfl, rfl⟩
        · split
          · exact Or.inr ⟨rfl, rfl⟩
          · split
            · refine Or.inl ⟨rfl, ?_⟩
              split <;> rfl
            · split
              · refine Or.inl ⟨rfl, ?_⟩
                split <;> rfl
              · exact Or.inr ⟨rfl, rfl⟩

/-- A failed `ensureModel` call leaves the resident record untouched. -/
theorem ensureModel_fail_keeps_current (reg : String → Option ModelCfg) (env : EnsureEnv)
    (n : String) (cfg : Option ModelCfg) (s : OrchState)
    (h : (ensureModel reg env n cfg s).err.isSome = true) :
    (ensureModel reg env n cfg s).state.current = s.current := by
  rcases ensureModel_spec reg env n cfg s with ⟨_, hc⟩ | ⟨he, _⟩
  · exact hc
  · rw [he] at h
    simp at h

/-- A successful `ensureModel` call leaves some resident set. -/
theorem ensureModel_ok_some (reg : String → Option ModelCfg) (env : EnsureEnv)
    (n : String) (cfg : Option ModelCfg) (s : OrchState)
    (h : (ensureModel reg env n cfg s).err = none) :
    ((ensureModel reg env n cfg s).state.current).isSome = true := by
  rcases ensureModel_spec reg env n cfg s with ⟨he, _⟩ | ⟨_, hc⟩
  · rw [h] at he
    simp at he
  · exact hc

/-- A run in which every call fails does not change the resident record. -/
theorem runEnsureCalls_fail_current (reg : String → Option ModelCfg) :
    ∀ (calls : List EnsureCall) (s : OrchState),
      allCallsFail reg s calls = true →
      (runEnsureCalls reg s calls).current = s.current := by
  intro calls
  induction calls with
  | nil => intro s _; rfl
  | cons c cs ih =>
    intro s h
    simp only [allCallsFail, Bool.and_eq_true] at h
    simp only [runEnsureCalls]
    rw [ih _ h.2, ensureModel_fail_keeps_current _ _ _ _ _ h.1]

/-- Claim C10: while no `ensureModel` call has succeeded since process start,
`getCurrentPort` and `getCurrentModel` throw `"no model running"`; after any
successful `ensureModel` call they return a value. -/
theorem accessors_throw_iff_no_resident (reg : String → Option ModelCfg) :
    (∀ calls : List EnsureCall, allCallsFail reg orchInit calls = true →
      getCurrentPort (runEnsureCalls reg orchInit calls) = Except.error "no model running" ∧
      getCurrentModel (runEnsureCalls reg orchInit calls) = Except.error "no model running") ∧
    (∀ (env : EnsureEnv) (n : String) (cfg : Option ModelCfg) (s : OrchState),
      (ensureModel reg env n cfg s).err = none →
      (∃ p, getCurrentPort (ensureModel reg env n cfg s).state = Except.ok p) ∧
      (∃ r, getCurrentModel (ensureModel reg env n cfg s).state = Except.ok r)) := by
  constructor
  · intro calls h
    have hc := runEnsureCalls_fail_current reg calls orchInit h
    constructor
    · unfold getCurrentPort
      rw [hc]
      rfl
    · unfold getCurrentModel
      rw [hc]
      rfl
  · intro env n cfg s h
    have hs := ensureModel_ok_some reg env n cfg s h
    rcases hoc : (ensureModel reg env n cfg s).state.current with _ | c
    · rw [hoc] at hs
      simp at hs
    · constructor
      · exact ⟨c.port, by unfold getCurrentPort; rw [hoc]⟩
      · exact ⟨c, by unfold getCurrentModel; rw [hoc]⟩

/-- Witness for `accessors_throw_iff_no_resident`: after one failed call
(unknown model) the accessor still throws; after one successful cold load it
returns. -/
theorem accessors_throw_iff_no_resident_witness :
    getCurrentPort (runEnsureCalls emptyRegistry orchInit [⟨envColdLoad, "nope", none⟩]) =
      Except.error "no model running" ∧
    ∃ p, getCurrentPort (ensureModel emptyRegistry envColdLoad "model-a" (some cfgA)
      orchInit).state = Except.ok p :=
  ⟨((accessors_throw_iff_no_resident emptyRegistry).1 [⟨envColdLoad, "nope", none⟩]
      (by decide)).1,
   ((accessors_throw_iff_no_resident emptyRegistry).2 envColdLoad "model-a" (some cfgA)
      orchInit (by decide)).1⟩

/-- `enterSeq` distributes over append. -/
theorem enterSeq_append (l1 l2 : List LogEvent) :
    enterSeq (l1 ++ l2) = enterSeq l1 ++ enterSeq l2 :=
  List.filterMap_append l1 l2 _

/-- `acqSeq` of a cons. -/
theorem acqSeq_cons (e : MutexEvent) (es : List MutexEvent) :
    acqSeq (e :: es) = acqSeq [e] ++ acqSeq es := by
  cases e <;> simp [acqSeq]

/-- `enterSeq` of a leading entry event. -/
theorem enterSeq_cons_enter (t : Nat) (l : List LogEvent) :
    enterSeq (LogEvent.enter t :: l) = t :: enterSeq l := by
  simp [enterSeq, List.filterMap_cons]

/-- `enterSeq` skips release events. -/
theorem enterSeq_cons_leave (t : Nat) (l : List LogEvent) :
    enterSeq (LogEvent.leave t :: l) = enterSeq l := by
  simp [enterSeq, List.filterMap_cons]

/-- The tasks entering in a completed chain are exactly the chain's tasks. -/
theorem enterSeq_completed (ts : List Nat) : enterSeq (completed ts) = ts := by
  induction ts with
  | nil => rfl
  | cons t ts ih => rw [completed, enterSeq_cons_enter, enterSeq_cons_leave, ih]

/-- Chains concatenate. -/
theorem completed_append (ts us : List Nat) :
    completed (ts ++ us) = completed ts ++ completed us := by
  induction ts with
  | nil => rfl
  | cons t ts ih => simp [completed, ih]

/-- A chain contains the entry event of each of its tasks. -/
theorem mem_completed_enter (t : Nat) (ts : List Nat) (h : t ∈ ts) :
    LogEvent.enter t ∈ completed ts := by
  induction ts with
  | nil => simp at h
  | cons u us ih =>
    rcases List.mem_cons.mp h with rfl | h'
    · simp [completed]
    · simp [completed, ih h']

/-- The initial mutex state satisfies the invariant. -/
theorem mutexInv_init : MutexInv mutexInit :=
  ⟨fun _ => rfl, by simp [mutexInit], ⟨[], Or.inl ⟨rfl, rfl⟩⟩⟩

/-- One mutex step preserves the invariant, and the entered-then-waiting
queue grows exactly by the acquiring task (FIFO bookkeeping). -/
theorem mutexStep_inv (s s' : MutexState) (e : MutexEvent)
    (hinv : MutexInv s) (hstep : mutexStep s e = some s') :
    MutexInv s' ∧
      enterSeq s'.log ++ s'.waiters = (enterSeq s.log ++ s.waiters) ++ acqSeq [e] := by
  obtain ⟨hw, hlh, ts, hchain⟩ := hinv
  cases e with
  | acq t =>
    simp only [mutexStep] at hstep
    cases hsl : s.locked with
    | true =>
      rw [hsl] at hstep
      simp only [if_true] at hstep
      obtain rfl := Option.some.inj hstep
      refine ⟨⟨?_, ?_, ts, ?_⟩, ?_⟩
      · intro h
        simp at h
      · simpa [hsl] using hlh
      · exact hchain
      · simp [acqSeq, List.append_assoc]
    | false =>
      rw [hsl] at hstep
      simp only [Bool.false_eq_true, if_false] at hstep
      obtain rfl := Option.some.inj hstep
      have hwn := hw hsl
      have hhn := hlh.mp hsl
      rcases hchain with ⟨_, hlog⟩ | ⟨h, hh, _⟩
      · refine ⟨⟨?_, ?_, ts, ?_⟩, ?_⟩
        · intro h
          cases h
        · simp
        · exact Or.inr ⟨t, rfl, by rw [hlog]⟩
        · simp [acqSeq, enterSeq_append, enterSeq, List.filterMap, hwn]
      · rw [hhn] at hh
        cases hh
  | rel =>
    simp only [mutexStep] at hstep
    rcases hh : s.holder with _ | h
    · rw [hh] at hstep
      cases hstep
    · rw [hh] at hstep
      rcases hchain with ⟨hn, _⟩ | ⟨h2, hh2, hlog⟩
      · rw [hh] at hn
        cases hn
      · rw [hh] at hh2
        obtain rfl := Option.some.inj hh2
        rcases hwt : s.waiters with _ | ⟨n, rest⟩
        · rw [hwt] at hstep
          obtain rfl := Option.some.inj hstep
          refine ⟨⟨fun _ => rfl, by simp, ts ++ [h], Or.inl ⟨rfl, ?_⟩⟩, ?_⟩
          · rw [hlog, completed_append]
            simp [completed]
          · simp [acqSeq, enterSeq_append, enterSeq, List.filterMap, hwt]
        · rw [hwt] at hstep
          obtain rfl := Option.some.inj hstep
          refine ⟨⟨?_, by simp, ts ++ [h], Or.inr ⟨n, rfl, ?_⟩⟩, ?_⟩
          · intro hcon
            simp at hcon
          · rw [hlog, completed_append]
            simp [completed]
          · simp [acqSeq, enterSeq_append, enterSeq, List.filterMap, hwt]

/-- Running a trace from an invariant state: the invariant holds at the end
and the entered-then-waiting queue equals the starting queue extended by the
acquire order of the trace. -/
theorem mutexRun_inv : ∀ (tr : List MutexEvent) (s0 s : MutexState),
    MutexInv s0 → mutexRun s0 tr = some s →
    MutexInv s ∧
      enterSeq s.log ++ s.waiters = (enterSeq s0.log ++ s0.waiters) ++ acqSeq tr := by
  intro tr
  induction tr with
  | nil =>
    intro s0 s h0 hr
    simp only [mutexRun] at hr
    obtain rfl := Option.some.inj hr
    exact ⟨h0, by simp [acqSeq]⟩
  | cons e es ih =>
    intro s0 s h0 hr
    simp only [mutexRun] at hr
    rcases hstep : mutexStep s0 e with _ | s1
    · rw [hstep] at hr
      cases hr
    · rw [hstep] at hr
      obtain ⟨h1, heq1⟩ := mutexStep_inv s0 s1 e h0 hstep
      obtain ⟨h2, heq2⟩ := ih s1 s h1 hr
      refine ⟨h2, ?_⟩
      rw [heq2, heq1, acqSeq_cons e es, List.append_assoc]

/-- In a duplicate-free list split as `l1 ++ A :: l2`, any element of `l2`
that lies in an initial segment `p` lies strictly after `A` inside `p`. -/
theorem mem_take_order : ∀ (l1 l2 p r : List Nat) (A B : Nat),
    (l1 ++ A :: l2).Nodup → l1 ++ A :: l2 = p ++ r → B ∈ l2 → B ∈ p →
    ∃ q1 q2, p = q1 ++ A :: q2 ∧ B ∈ q2 := by
  intro l1
  induction l1 with
  | nil =>
    intro l2 p r A B hnd heq hB hBp
    rcases p with _ | ⟨a, p'⟩
    · simp at hBp
    · rw [List.nil_append] at heq
      rw [List.cons_append] at heq
      injection heq with h1 h2
      subst h1
      rcases List.mem_cons.mp hBp with rfl | hBp'
      · exfalso
        have hnodup := List.nodup_cons.mp (by simpa using hnd)
        exact hnodup.1 hB
      · exact ⟨[], p', rfl, hBp'⟩
  | cons x l1' ih =>
    intro l2 p r A B hnd heq hB hBp
    rcases p with _ | ⟨a, p'⟩
    · simp at hBp
    · rw [List.cons_append, List.cons_append] at heq
      injection heq with h1 h2
      subst h1
      have hnd1 : (x :: (l1' ++ A :: l2)).Nodup := by
        rw [← List.cons_append]
        exact hnd
      have hnodup := List.nodup_cons.mp hnd1
      rcases List.mem_cons.mp hBp with rfl | hBp'
      · exfalso
        exact hnodup.1 (List.mem_append_right _ (List.mem_cons_of_mem _ hB))
      · obtain ⟨q1, q2, hp, hBq⟩ := ih l2 p' r A B hnodup.2 h2 hB hBp'
        exact ⟨x :: q1, q2, by rw [hp]; rfl, hBq⟩

/-- Splitting a chain with an optional pending entry at a task `A` that is
followed by `B` in the entry order: `A`'s entry and release both precede
`B`'s entry in the log. -/
theorem chain_split :
    ∀ (q1 ts : List Nat) (pendLog : List LogEvent) (pendIds : List Nat)
      (A B : Nat) (q2 : List Nat),
      ((pendLog = [] ∧ pendIds = []) ∨
        (∃ h, pendLog = [LogEvent.enter h] ∧ pendIds = [h])) →
      ts ++ pendIds = q1 ++ A :: q2 →
      B ∈ q2 →
      ∃ p1 p2 p3,
        completed ts ++ pendLog = p1 ++ LogEvent.enter A :: p2 ++ LogEvent.leave A :: p3 ∧
        LogEvent.enter B ∈ p3 := by
  intro q1
  induction q1 with
  | nil =>
    intro ts pendLog pendIds A B q2 hpend heq hB
    rcases ts with _ | ⟨t, ts'⟩
    · exfalso
      rcases hpend with ⟨_, h2⟩ | ⟨h, _, h2⟩ <;> rw [h2] at heq
      · simp at heq
      · rw [List.nil_append, List.nil_append] at heq
        injection heq with _ h4
        rw [← h4] at hB
        simp at hB
    · rw [List.cons_append, List.nil_append] at heq
      injection heq with h1 h2
      subst h1
      refine ⟨[], [], completed ts' ++ pendLog, by simp [completed], ?_⟩
      rw [← h2] at hB
      rcases List.mem_append.mp hB with hB' | hB'
      · exact List.mem_append_left _ (mem_completed_enter _ _ hB')
      · rcases hpend with ⟨_, h4⟩ | ⟨h, h3, h4⟩
        · rw [h4] at hB'
          simp at hB'
        · rw [h4, List.mem_singleton] at hB'
          subst hB'
          rw [h3]
          exact List.mem_append_right _ (by simp)
  | cons x q1' ih =>
    intro ts pendLog pendIds A B q2 hpend heq hB
    rcases ts with _ | ⟨t, ts'⟩
    · exfalso
      rcases hpend with ⟨_, h2⟩ | ⟨h, _, h2⟩ <;> rw [h2] at heq
      · simp at heq
      · rw [List.nil_append, List.cons_append] at heq
        injection heq with _ h4
        exact absurd h4.symm (by simp)
    · rw [List.cons_append, List.cons_append] at heq
      injection heq with h1 h2
      obtain ⟨p1, p2, p3, hp, hm⟩ := ih ts' pendLog pendIds A B q2 hpend h2 hB
      refine ⟨LogEvent.enter t :: LogEvent.leave t :: p1, p2, p3, ?_, hm⟩
      simp [completed, hp]

/-- Claim C6: the GPU mutex is FIFO-fair.  For any legal trace from the
initial state in which each task acquires at most once, if `A` calls
`acquire` strictly before `B` (A precedes B in the acquire order) and `B` has
entered its critical section, then the log shows `A`'s entry, then `A`'s
release, and only then `B`'s entry. -/
theorem mutex_fifo_fairness (tr : List MutexEvent) (s : MutexState) (A B : Nat)
    (l1 l2 : List Nat)
    (hrun : mutexRun mutexInit tr = some s)
    (hnd : (acqSeq tr).Nodup)
    (hacq : acqSeq tr = l1 ++ A :: l2)
    (hB : B ∈ l2)
    (hBlog : LogEvent.enter B ∈ s.log) :
    ∃ p1 p2 p3,
      s.log = p1 ++ LogEvent.enter A :: p2 ++ LogEvent.leave A :: p3 ∧
      LogEvent.enter B ∈ p3 := by
  obtain ⟨hinv, heq⟩ := mutexRun_inv tr mutexInit s mutexInv_init hrun
  have heq' : enterSeq s.log ++ s.waiters = acqSeq tr := by
    rw [heq]
    simp [mutexInit, enterSeq]
  obtain ⟨_, _, ts, hchain⟩ := hinv
  have hBe : B ∈ enterSeq s.log :=
    List.mem_filterMap.mpr ⟨LogEvent.enter B, hBlog, rfl⟩
  have hsplit : l1 ++ A :: l2 = enterSeq s.log ++ s.waiters := by
    rw [heq', hacq]
  have hnd' : (l1 ++ A :: l2).Nodup := hacq ▸ hnd
  obtain ⟨q1, q2, hp, hBq⟩ :=
    mem_take_order l1 l2 (enterSeq s.log) s.waiters A B hnd' hsplit hB hBe
  rcases hchain with ⟨_, hlog⟩ | ⟨h, _, hlog⟩
  · have hts : enterSeq s.log = ts := by
      rw [hlog, enterSeq_completed]
    have hdec : ts ++ ([] : List Nat) = q1 ++ A :: q2 := by
      rw [List.append_nil, ← hts, hp]
    obtain ⟨p1, p2, p3, hd, hm⟩ :=
      chain_split q1 ts [] [] A B q2 (Or.inl ⟨rfl, rfl⟩) hdec hBq
    rw [List.append_nil] at hd
    exact ⟨p1, p2, p3, by rw [hlog]; exact hd, hm⟩
  · have hts : enterSeq s.log = ts ++ [h] := by
      rw [hlog, enterSeq_append, enterSeq_completed]
      simp [enterSeq, List.filterMap]
    have hdec : ts ++ [h] = q1 ++ A :: q2 := by
      rw [← hts, hp]
    obtain ⟨p1, p2, p3, hd, hm⟩ :=
      chain_split q1 ts [LogEvent.enter h] [h] A B q2 (Or.inr ⟨h, rfl, rfl⟩) hdec hBq
    exact ⟨p1, p2, p3, by rw [hlog]; exact hd, hm⟩

/-- Witness for `mutex_fifo_fairness`: in the trace where task 1 acquires,
task 2 acquires while the mutex is held, and two releases follow, task 1's
entry and release precede task 2's entry. -/
theorem mutex_fifo_fairness_witness :
    ∃ p1 p2 p3,
      [LogEvent.enter 1, LogEvent.leave 1, LogEvent.enter 2, LogEvent.leave 2] =
        p1 ++ LogEvent.enter 1 :: p2 ++ LogEvent.leave 1 :: p3 ∧
      LogEvent.enter 2 ∈ p3 :=
  mutex_fifo_fairness [MutexEvent.acq 1, MutexEvent.acq 2, MutexEvent.rel, MutexEvent.rel]
    ⟨false, [], none, [LogEvent.enter 1, LogEvent.leave 1, LogEvent.enter 2, LogEvent.leave 2]⟩
    1 2 [] [2] (by decide) (by decide) (by decide) (by decide) (by decide)

end LolsRouter
